import Mathlib

/-!
Shallow embedding of the virtual machine control layer (machine.go, the
flag-bitset plus description variant that the specification adopts).

External effects are modelled by an explicit environment oracle `Env` that
answers each external call, and an explicit state `St` that counts external
calls and records the trace of issued events.  The unbounded busy-wait loop
of `Stop` is modelled with a fuel parameter: exhausting the fuel yields the
distinguished outcome `none` (still looping), never success.
-/

namespace VirtualBox

/-- Machine lifecycle state; the Go type MachineState is a string wrapper. -/
abbrev MachineState := String

/-- The poweroff state constant. -/
def Poweroff : MachineState := "poweroff"

/-- The running state constant. -/
def Running : MachineState := "running"

/-- The paused state constant. -/
def Paused : MachineState := "paused"

/-- The saved state constant. -/
def Saved : MachineState := "saved"

/-- The aborted state constant. -/
def Aborted : MachineState := "aborted"

/-- Flag is the Go int bitset of feature toggles, modelled by its bit
pattern as a natural number. -/
abbrev Flag := Nat

def FlagACPI : Flag := 1 <<< 0
def FlagIOAPIC : Flag := 1 <<< 1
def FlagRTCUseUTC : Flag := 1 <<< 2
def FlagCPUHotplug : Flag := 1 <<< 3
def FlagPAE : Flag := 1 <<< 4
def FlagLongMode : Flag := 1 <<< 5
def FlagHPET : Flag := 1 <<< 6
def FlagHWvirtEx : Flag := 1 <<< 7
def FlagTripleRaultReset : Flag := 1 <<< 8
def FlagNestedPaging : Flag := 1 <<< 9
def FlagLargePages : Flag := 1 <<< 10
def FlagVTXVPID : Flag := 1 <<< 11
def FlagVTXUX : Flag := 1 <<< 12
def FlagAccelerate3D : Flag := 1 <<< 13
def FlagUSB : Flag := 1 <<< 14
def FlagUSBEHCI : Flag := 1 <<< 15
def FlagUSBXHCI : Flag := 1 <<< 16

/-- Convert bool to on or off, as in the source function bool2string. -/
def bool2string (b : Bool) : String := if b then "on" else "off"

/-- Get tests if every bit of the mask o is set in f, as the source
expression f AND o equals o. -/
def Flag.Get (f o : Flag) : String := bool2string (Nat.land f o == o)

/-- Error taxonomy of the control layer. -/
inductive Err where
  | machineNotExist
  | machineExist
  | nameEmpty
  | parseUint (val : String)
  | vbmFail (stderr : String)
deriving DecidableEq, Repr

/-- Machine information, one field per field of the Go struct. -/
structure Machine where
  Name : String
  UUID : String
  State : MachineState
  CPUs : Nat
  Memory : Nat
  VRAM : Nat
  CfgFile : String
  BaseFolder : String
  OSType : String
  Flag : Flag
  BootOrder : List String
  Description : String
deriving DecidableEq, Repr

/-- The Go zero value of the Machine struct. -/
def Machine.empty : Machine :=
  { Name := "", UUID := "", State := "", CPUs := 0, Memory := 0, VRAM := 0,
    CfgFile := "", BaseFolder := "", OSType := "", Flag := 0, BootOrder := [],
    Description := "" }

/-- One observable external event issued by the control layer. -/
inductive Event where
  | vbm (args : List String)
  | sleep (seconds : Nat)
  | showvminfo (id : String)
  | listvms
deriving DecidableEq, Repr

/-- Execution state: a counter of answered external calls and the trace of
issued events. -/
structure St where
  k : Nat
  trace : List Event
deriving DecidableEq, Repr

def St.vbmCall (s : St) (args : List String) : St :=
  { k := s.k + 1, trace := s.trace ++ [Event.vbm args] }

def St.queryCall (s : St) (id : String) : St :=
  { k := s.k + 1, trace := s.trace ++ [Event.showvminfo id] }

def St.listCall (s : St) : St :=
  { k := s.k + 1, trace := s.trace ++ [Event.listvms] }

def St.sleepEvt (s : St) (n : Nat) : St :=
  { k := s.k, trace := s.trace ++ [Event.sleep n] }

/-- Modelled from the spec: the command executor boundary (vbm, vbmOut,
vbmOutErr live outside this source file).  The oracle answers the n-th
external call: `vbm` gives the failure, if any, of a side-effecting command;
`showvminfo` gives (stdout, stderr, failed) of the machine-readable query;
`listvms` gives the stdout of the registry listing or a failure. -/
structure Env where
  vbm : Nat → List String → Option Err
  showvminfo : Nat → String → String × String × Bool
  listvms : Nat → Except Err String

/-- Outcome of one vbm invocation: the Go nil error means success. -/
def vbmResult : Option Err → Except Err Unit
  | none => Except.ok ()
  | some e => Except.error e

/-- Run one vbm command: consult the oracle, record the event. -/
def vbmRun (env : Env) (s : St) (args : List String) : Except Err Unit × St :=
  (vbmResult (env.vbm s.k args), s.vbmCall args)

/-- Split a character list at the first occurrence of the character c. -/
def splitAtChar (c : Char) : List Char → Option (List Char × List Char)
  | [] => none
  | x :: rest =>
    if x = c then some ([], rest)
    else (splitAtChar c rest).map (fun p => (x :: p.1, p.2))

/-- Split a character list into lines at newline characters, as the
line scanner over the captured stdout does. -/
def splitLines : List Char → List (List Char)
  | [] => [[]]
  | c :: rest =>
    if c = '\n' then [] :: splitLines rest
    else
      match splitLines rest with
      | [] => [[c]]
      | l :: ls => (c :: l) :: ls

/-- Strip one pair of enclosing double quotes, if present. -/
def stripQuotes (s : String) : String :=
  if 2 ≤ s.length ∧ s.front = '"' ∧ s.back = '"' then (s.drop 1).dropRight 1
  else s

/-- Modelled from the spec: the machine-readable info line pattern
(reVMInfoLine is defined outside this source file).  Each line yields one
key and one value separated by an equals sign; the value may be empty, a
bare token, or a double quoted string with the quotes stripped and no
escape processing; a line with no equals sign or an empty key is skipped. -/
def parseInfoLine (line : String) : Option (String × String) :=
  match splitAtChar '=' line.toList with
  | none => none
  | some (k, v) =>
    if k.isEmpty then none
    else some (stripQuotes (String.mk k), stripQuotes (String.mk v))

/-- Parse an unsigned decimal of at most 32 bits, as strconv.ParseUint with
base 10 and bit size 32: a nonempty all-digit string below 2 to the 32. -/
def parseUint32 (val : String) : Except Err Nat :=
  if val.length > 0 ∧ val.toList.all Char.isDigit then
    let n := val.toList.foldl (fun a c => a * 10 + (c.toNat - 48)) 0
    if n < 2 ^ 32 then Except.ok n else Except.error (Err.parseUint val)
  else Except.error (Err.parseUint val)

/-- Directory of a path, as filepath.Dir: drop the final path element and
any trailing separators (simplified: paths without dot segments). -/
def filepathDir (path : String) : String :=
  let rev := path.toList.reverse
  let afterBase := rev.dropWhile (fun c => c != '/')
  let dirRev := afterBase.dropWhile (fun c => c == '/')
  if dirRev.isEmpty then (if afterBase.isEmpty then "." else "/")
  else String.mk dirRev.reverse

/-- Apply one recognized key of the machine-readable output to the machine
being built, exactly as the switch in GetMachine; unrecognized keys are
ignored; malformed numeric fields abort with a parse error. -/
def applyInfo (m : Machine) (key val : String) : Except Err Machine :=
  match key with
  | "name" => Except.ok { m with Name := val }
  | "UUID" => Except.ok { m with UUID := val }
  | "VMState" => Except.ok { m with State := val }
  | "memory" => (parseUint32 val).map (fun n => { m with Memory := n })
  | "cpus" => (parseUint32 val).map (fun n => { m with CPUs := n })
  | "vram" => (parseUint32 val).map (fun n => { m with VRAM := n })
  | "CfgFile" =>
    Except.ok { m with CfgFile := val, BaseFolder := filepathDir val }
  | "description" => Except.ok { m with Description := val }
  | _ => Except.ok m

/-- Fold the scanner loop of GetMachine over the lines of the output. -/
def parseMachineLines : List String → Machine → Except Err Machine
  | [], m => Except.ok m
  | l :: rest, m =>
    match parseInfoLine l with
    | none => parseMachineLines rest m
    | some (k, v) =>
      match applyInfo m k v with
      | Except.error e => Except.error e
      | Except.ok m2 => parseMachineLines rest m2

/-- Parse a whole machine-readable stdout into a fresh Machine. -/
def parseMachineOutput (stdout : String) : Except Err Machine :=
  parseMachineLines ((splitLines stdout.toList).map String.mk) Machine.empty

/-- Modelled from the spec: the could-not-find pattern matched against the
error stream of the external tool (reMachineNotFound is defined outside
this source file). -/
def matchesNotFound (stderr : String) : Bool :=
  (stderr.splitOn "Could not find a registered machine").length > 1

/-- GetMachine finds a machine by its name or UUID: query the oracle,
classify a failure by the not-found pattern, otherwise parse the stdout
into a fresh Machine. -/
def GetMachine (env : Env) (s : St) (id : String) : Except Err Machine × St :=
  let out := env.showvminfo s.k id
  (if out.2.2 then
    if matchesNotFound out.2.1 then Except.error Err.machineNotExist
    else Except.error (Err.vbmFail out.2.1)
  else parseMachineOutput out.1,
  s.queryCall id)

/-- The identifier Refresh queries: the name, or the UUID when the name is
empty. -/
def Machine.refreshId (m : Machine) : String :=
  if m.Name = "" then m.UUID else m.Name

/-- Refresh reloads the machine information: on success the whole snapshot
is replaced by the freshly parsed one, on failure the machine is left
untouched. -/
def Machine.Refresh (env : Env) (m : Machine) (s : St) :
    Except Err Unit × Machine × St :=
  match GetMachine env s m.refreshId with
  | (Except.error e, s2) => (Except.error e, m, s2)
  | (Except.ok mm, s2) => (Except.ok (), mm, s2)

/-- Start starts the machine: resume when paused, headless start when
powered off, saved or aborted, otherwise do nothing. -/
def Machine.Start (env : Env) (m : Machine) (s : St) : Except Err Unit × St :=
  if m.State = Paused then vbmRun env s ["controlvm", m.Name, "resume"]
  else if m.State = Poweroff ∨ m.State = Saved ∨ m.State = Aborted then
    vbmRun env s ["startvm", m.Name, "--type", "headless"]
  else (Except.ok (), s)

/-- Save suspends the machine and saves its state to disk. -/
def Machine.Save (env : Env) (m : Machine) (s : St) : Except Err Unit × St :=
  if m.State = Paused then
    match m.Start env s with
    | (Except.error e, s2) => (Except.error e, s2)
    | (Except.ok _, s2) => vbmRun env s2 ["controlvm", m.Name, "savestate"]
  else if m.State = Poweroff ∨ m.State = Aborted ∨ m.State = Saved then
    (Except.ok (), s)
  else vbmRun env s ["controlvm", m.Name, "savestate"]

/-- Pause pauses the execution of the machine. -/
def Machine.Pause (env : Env) (m : Machine) (s : St) : Except Err Unit × St :=
  if m.State = Paused ∨ m.State = Poweroff ∨ m.State = Aborted ∨
      m.State = Saved then
    (Except.ok (), s)
  else vbmRun env s ["controlvm", m.Name, "pause"]

/-- The busy-wait loop of Stop: while the cached state is not poweroff,
send the power button signal, sleep one second, refresh, and retry.  The
fuel only bounds the model; exhausting it yields none (still looping). -/
def stopLoop (env : Env) (fuel : Nat) (m : Machine) (s : St) :
    Option (Except Err Unit × Machine × St) :=
  if m.State = Poweroff then some (Except.ok (), m, s)
  else
    match fuel with
    | 0 => none
    | fuel' + 1 =>
      match vbmRun env s ["controlvm", m.Name, "acpipowerbutton"] with
      | (Except.error e, s2) => some (Except.error e, m, s2)
      | (Except.ok _, s2) =>
        match m.Refresh env (s2.sleepEvt 1) with
        | (Except.error e, m2, s4) => some (Except.error e, m2, s4)
        | (Except.ok _, m2, s4) => stopLoop env fuel' m2 s4

/-- Stop gracefully stops the machine: no-op from poweroff, aborted or
saved, Start first from paused, then busy-wait until poweroff. -/
def Machine.Stop (env : Env) (fuel : Nat) (m : Machine) (s : St) :
    Option (Except Err Unit × Machine × St) :=
  if m.State = Poweroff ∨ m.State = Aborted ∨ m.State = Saved then
    some (Except.ok (), m, s)
  else if m.State = Paused then
    match m.Start env s with
    | (Except.error e, s2) => some (Except.error e, m, s2)
    | (Except.ok _, s2) => stopLoop env fuel m s2
  else stopLoop env fuel m s

/-- Poweroff forcefully stops the machine. -/
def Machine.Poweroff (env : Env) (m : Machine) (s : St) :
    Except Err Unit × St :=
  if m.State = "poweroff" ∨ m.State = Aborted ∨ m.State = Saved then
    (Except.ok (), s)
  else vbmRun env s ["controlvm", m.Name, "poweroff"]

/-- Restart gracefully restarts the machine: Start first from paused or
saved, then Stop, then Start again, aborting at the first failure. -/
def Machine.Restart (env : Env) (fuel : Nat) (m : Machine) (s : St) :
    Option (Except Err Unit × Machine × St) :=
  match (if m.State = Paused ∨ m.State = Saved then m.Start env s
         else (Except.ok (), s)) with
  | (Except.error e, s2) => some (Except.error e, m, s2)
  | (Except.ok _, s2) =>
    match m.Stop env fuel s2 with
    | none => none
    | some (Except.error e, m2, s3) => some (Except.error e, m2, s3)
    | some (Except.ok _, m2, s3) =>
      match m2.Start env s3 with
      | (Except.error e, s4) => some (Except.error e, m2, s4)
      | (Except.ok _, s4) => some (Except.ok (), m2, s4)

/-- Reset forcefully restarts the machine. -/
def Machine.Reset (env : Env) (m : Machine) (s : St) : Except Err Unit × St :=
  match (if m.State = Paused ∨ m.State = Saved then m.Start env s
         else (Except.ok (), s)) with
  | (Except.error e, s2) => (Except.error e, s2)
  | (Except.ok _, s2) => vbmRun env s2 ["controlvm", m.Name, "reset"]

/-- Delete deletes the machine and associated disk images. -/
def Machine.Delete (env : Env) (m : Machine) (s : St) : Except Err Unit × St :=
  match m.Poweroff env s with
  | (Except.error e, s2) => (Except.error e, s2)
  | (Except.ok _, s2) => vbmRun env s2 ["unregistervm", m.Name, "--delete"]

/-- A bare token character of a listed UUID. -/
def isUUIDChar (c : Char) : Bool := c.isAlphanum || c = '-'

/-- Modelled from the spec: one line of list vms output (reVMNameUUID is
defined outside this source file): a double quoted nonempty name, a space,
and a bare nonempty UUID token enclosed in braces; anything else does not
match. -/
def parseListLine (line : String) : Option (String × String) :=
  match line.toList with
  | '"' :: rest =>
    match splitAtChar '"' rest with
    | none => none
    | some (nameCs, rest2) =>
      match rest2 with
      | ' ' :: '\x7b' :: rest3 =>
        match splitAtChar '\x7d' rest3 with
        | some (uuidCs, []) =>
          if nameCs.length > 0 && uuidCs.length > 0 && uuidCs.all isUUIDChar
          then some (String.mk nameCs, String.mk uuidCs)
          else none
        | _ => none
      | _ => none
  | _ => none

/-- The scanner loop of ListMachines: skip lines that do not match the
name and UUID shape, resolve each matching line through GetMachine, abort
the whole listing at the first resolution failure. -/
def listLoop (env : Env) : List String → St → Except Err (List Machine) × St
  | [], s => (Except.ok [], s)
  | l :: ls, s =>
    match parseListLine l with
    | none => listLoop env ls s
    | some (nm, _) =>
      match GetMachine env s nm with
      | (Except.error e, s2) => (Except.error e, s2)
      | (Except.ok m, s2) =>
        match listLoop env ls s2 with
        | (Except.error e, s3) => (Except.error e, s3)
        | (Except.ok ms, s3) => (Except.ok (m :: ms), s3)

/-- ListMachines lists all registered machines. -/
def ListMachines (env : Env) (s : St) : Except Err (List Machine) × St :=
  match env.listvms s.k with
  | Except.error e => (Except.error e, s.listCall)
  | Except.ok out =>
    listLoop env ((splitLines out.toList).map String.mk) s.listCall

/-- The argument list of the create command: the base folder flag is added
exactly when the base folder is nonempty. -/
def createArgs (name basefolder : String) : List String :=
  ["createvm", "--name", name, "--register"] ++
  (if basefolder = "" then [] else ["--basefolder", basefolder])

/-- CreateMachine creates a new machine: reject an empty name before any
external call, list and check for a name collision, then issue the create
command (with the base folder flag exactly when nonempty) and query the
fresh machine. -/
def CreateMachine (env : Env) (name basefolder : String) (s : St) :
    Except Err Machine × St :=
  if name = "" then (Except.error Err.nameEmpty, s)
  else
    match ListMachines env s with
    | (Except.error e, s2) => (Except.error e, s2)
    | (Except.ok ms, s2) =>
      if ms.any (fun m => m.Name == name) then
        (Except.error Err.machineExist, s2)
      else
        match vbmRun env s2 (createArgs name basefolder) with
        | (Except.error e, s3) => (Except.error e, s3)
        | (Except.ok _, s3) => GetMachine env s3 name

/-- The boot order loop of Modify: slot flags boot1 to boot4, entries
beyond the fourth are dropped. -/
def bootLoop (i : Nat) : List String → List String
  | [] => []
  | dev :: rest =>
    if i > 3 then []
    else ("--boot" ++ toString (i + 1)) :: dev :: bootLoop (i + 1) rest

/-- The fixed (boot order independent) part of the Modify argument list. -/
def Machine.modifyFixedArgs (m : Machine) : List String :=
  ["modifyvm", m.Name,
   "--firmware", "bios",
   "--bioslogofadein", "off",
   "--bioslogofadeout", "off",
   "--bioslogodisplaytime", "0",
   "--biosbootmenu", "disabled",
   "--ostype", m.OSType,
   "--cpus", toString m.CPUs,
   "--memory", toString m.Memory,
   "--vram", toString m.VRAM,
   "--description", m.Description,
   "--acpi", Flag.Get m.Flag FlagACPI,
   "--ioapic", Flag.Get m.Flag FlagIOAPIC,
   "--rtcuseutc", Flag.Get m.Flag FlagRTCUseUTC,
   "--cpuhotplug", Flag.Get m.Flag FlagCPUHotplug,
   "--pae", Flag.Get m.Flag FlagPAE,
   "--longmode", Flag.Get m.Flag FlagLongMode,
   "--hpet", Flag.Get m.Flag FlagHPET,
   "--hwvirtex", Flag.Get m.Flag FlagHWvirtEx,
   "--triplefaultreset", Flag.Get m.Flag FlagTripleRaultReset,
   "--nestedpaging", Flag.Get m.Flag FlagNestedPaging,
   "--largepages", Flag.Get m.Flag FlagLargePages,
   "--vtxvpid", Flag.Get m.Flag FlagVTXVPID,
   "--vtxux", Flag.Get m.Flag FlagVTXUX,
   "--accelerate3d", Flag.Get m.Flag FlagAccelerate3D,
   "--usb", Flag.Get m.Flag FlagUSB,
   "--usbehci", Flag.Get m.Flag FlagUSBEHCI,
   "--usbxhci", Flag.Get m.Flag FlagUSBXHCI]

/-- The argument list Modify passes to the modify command: the fixed part
followed by the boot order slots. -/
def Machine.modifyArgs (m : Machine) : List String :=
  m.modifyFixedArgs ++ bootLoop 0 m.BootOrder

/-- Modify changes the settings of the machine, then refreshes. -/
def Machine.Modify (env : Env) (m : Machine) (s : St) :
    Except Err Unit × Machine × St :=
  match vbmRun env s m.modifyArgs with
  | (Except.error e, s2) => (Except.error e, m, s2)
  | (Except.ok _, s2) => m.Refresh env s2

/-- The machine-readable output block of the specification test vector,
with one unrecognized key appended. -/
def demoInfoOutput : String :=
  "name=\"demo\"\nUUID=\"1234-uuid\"\nVMState=\"running\"\nmemory=512\ncpus=2\nvram=16\nCfgFile=\"/vms/demo/demo.vbox\"\nsomeunknownkey=\"ignored\""

/-- The machine the specification test vector describes. -/
def demoMachine : Machine :=
  { Name := "demo", UUID := "1234-uuid", State := "running", CPUs := 2,
    Memory := 512, VRAM := 16, CfgFile := "/vms/demo/demo.vbox",
    BaseFolder := "/vms/demo", OSType := "", Flag := 0, BootOrder := [],
    Description := "" }

/-- An environment whose info query always answers the demo block and whose
commands always succeed. -/
def demoEnv : Env :=
  { vbm := fun _ _ => none,
    showvminfo := fun _ _ => (demoInfoOutput, "", false),
    listvms := fun _ => Except.ok "" }

/-- An environment where every external call succeeds with empty output. -/
def okEnv : Env :=
  { vbm := fun _ _ => none,
    showvminfo := fun _ _ => ("", "", false),
    listvms := fun _ => Except.ok "" }

/-- An environment whose info query always reports the running state: under
it the Stop loop never observes poweroff. -/
def runningEnv : Env :=
  { vbm := fun _ _ => none,
    showvminfo := fun _ _ => ("VMState=\"running\"", "", false),
    listvms := fun _ => Except.ok "" }

/-- An environment whose info query always reports the poweroff state. -/
def offEnv : Env :=
  { vbm := fun _ _ => none,
    showvminfo := fun _ _ => ("VMState=\"poweroff\"", "", false),
    listvms := fun _ => Except.ok "" }

/-- An environment whose info query reports a state outside the five
enumerated values. -/
def weirdStateEnv : Env :=
  { vbm := fun _ _ => none,
    showvminfo := fun _ _ => ("VMState=\"gurumeditation\"", "", false),
    listvms := fun _ => Except.ok "" }

/-- An environment whose info query answers a non-numeric memory field. -/
def badMemEnv : Env :=
  { vbm := fun _ _ => none,
    showvminfo := fun _ _ => ("memory=abc", "", false),
    listvms := fun _ => Except.ok "" }

/-- The registry listing of the specification test vector: one well-formed
line and one malformed line. -/
def listOutput : String := "\"demo\" \x7b1234-uuid\x7d\ngarbage line"

/-- An environment whose listing answers the two-line test vector and whose
info query answers the demo block. -/
def listEnv : Env :=
  { vbm := fun _ _ => none,
    showvminfo := fun _ _ => (demoInfoOutput, "", false),
    listvms := fun _ => Except.ok listOutput }

/-- A cached snapshot in the running state. -/
def someMachine : Machine := { Machine.empty with Name := "demo", State := "running" }

/-- A cached snapshot in the poweroff state. -/
def offMachine : Machine := { Machine.empty with Name := "demo", State := "poweroff" }

/-- A cached snapshot in the saved state. -/
def savedMachine : Machine := { Machine.empty with Name := "demo", State := "saved" }

/-- A cached snapshot in the paused state. -/
def pausedMachine : Machine := { Machine.empty with Name := "demo", State := "paused" }

/-- A machine with a two-entry boot order. -/
def bootMachine : Machine :=
  { Machine.empty with Name := "b", BootOrder := ["dvd", "disk"] }

/-- Recognizer of the Stop loop trace: zero or more blocks, each one power
button command, one fixed one second sleep, one refresh query. -/
def isPowerButtonBlocks : List Event → Bool
  | [] => true
  | Event.vbm ["controlvm", _, "acpipowerbutton"] :: Event.sleep 1 ::
      Event.showvminfo _ :: rest => isPowerButtonBlocks rest
  | _ => false

/-! Helper lemmas. -/

theorem land_eq_self_iff (f o : Nat) :
    Nat.land f o = o ↔ ∀ i, o.testBit i = true → f.testBit i = true := by
  have hl : Nat.land f o = f &&& o := rfl
  rw [hl]
  constructor
  · intro h i hi
    have h2 := congrArg (fun n => Nat.testBit n i) h
    simp only [Nat.testBit_land, hi, Bool.and_true] at h2
    exact h2
  · intro h
    apply Nat.eq_of_testBit_eq
    intro i
    rw [Nat.testBit_land]
    cases hb : o.testBit i
    · simp
    · simp [h i hb]

theorem land_two_pow_iff (f : Nat) (k : Nat) :
    Nat.land f (2 ^ k) = 2 ^ k ↔ f.testBit k = true := by
  rw [land_eq_self_iff]
  constructor
  · intro h
    exact h k (by simp [Nat.testBit_two_pow])
  · intro h i hi
    rw [Nat.testBit_two_pow] at hi
    have : k = i := of_decide_eq_true hi
    rw [← this]
    exact h

theorem flagGet_on_iff (f o : Flag) : Flag.Get f o = "on" ↔ Nat.land f o = o := by
  unfold Flag.Get bool2string
  by_cases h : Nat.land f o = o
  · simp [h]
  · simp [h]

theorem flagGet_off_iff (f o : Flag) :
    Flag.Get f o = "off" ↔ ¬ Nat.land f o = o := by
  unfold Flag.Get bool2string
  by_cases h : Nat.land f o = o
  · simp [h]
  · simp [h]

theorem splitAtChar_first (c : Char) (xs ys : List Char)
    (hx : ∀ x ∈ xs, x ≠ c) :
    splitAtChar c (xs ++ c :: ys) = some (xs, ys) := by
  induction xs with
  | nil => simp [splitAtChar]
  | cons a as ih =>
    have ha : a ≠ c := hx a (by simp)
    have ih2 := ih (fun x hx2 => hx x (by simp [hx2]))
    simp [splitAtChar, ha, ih2]

theorem splitLines_no_newline (cs : List Char)
    (h : ∀ x ∈ cs, x ≠ '\n') : splitLines cs = [cs] := by
  induction cs with
  | nil => rfl
  | cons a as ih =>
    have ha : a ≠ '\n' := h a (by simp)
    rw [splitLines, if_neg ha, ih (fun x hx => h x (by simp [hx]))]

theorem parseInfoLine_vmstate (v : String)
    (hq : ¬(2 ≤ v.length ∧ v.front = '"' ∧ v.back = '"')) :
    parseInfoLine ("VMState=" ++ v) = some ("VMState", v) := by
  unfold parseInfoLine
  have h2 : ("VMState=" ++ v).toList = "VMState=".toList ++ v.toList := by
    simp [String.toList, String.data_append]
  have h1 : ("VMState=" ++ v).toList =
      ['V', 'M', 'S', 't', 'a', 't', 'e'] ++ ('=' :: v.toList) := by
    rw [h2]
    rfl
  rw [h1, splitAtChar_first '=' ['V', 'M', 'S', 't', 'a', 't', 'e'] v.toList
    (by intro x hx; fin_cases hx <;> decide)]
  have hsv : stripQuotes v = v := by
    unfold stripQuotes
    rw [if_neg hq]
  simp only [List.isEmpty, if_neg]
  rw [show String.mk v.toList = v from rfl, hsv]
  rfl

/-! Claim theorems. -/

/-- C10: for every flag bitset value f and every single flag bit, Get
answers on exactly when the bit is set and off exactly when it is clear,
with no cross-bit interference; in general Get answers on exactly when
every bit of the mask is set, and the zero mask always answers on; the
seventeen defined flag constants are the first seventeen single bits. -/
theorem C10_flag_get_bits (f o : Flag) (k : Nat) :
    (Flag.Get f (2 ^ k) = "on" ↔ f.testBit k = true) ∧
    (Flag.Get f (2 ^ k) = "off" ↔ f.testBit k = false) ∧
    (Flag.Get f o = "on" ↔ ∀ i, o.testBit i = true → f.testBit i = true) ∧
    Flag.Get f 0 = "on" ∧
    [FlagACPI, FlagIOAPIC, FlagRTCUseUTC, FlagCPUHotplug, FlagPAE,
      FlagLongMode, FlagHPET, FlagHWvirtEx, FlagTripleRaultReset,
      FlagNestedPaging, FlagLargePages, FlagVTXVPID, FlagVTXUX,
      FlagAccelerate3D, FlagUSB, FlagUSBEHCI, FlagUSBXHCI] =
      (List.range 17).map (fun i => 2 ^ i) := by
  refine ⟨?_, ?_, ?_, ?_, by decide⟩
  · rw [flagGet_on_iff, land_two_pow_iff]
  · rw [flagGet_off_iff, land_two_pow_iff]
    simp
  · rw [flagGet_on_iff, land_eq_self_iff]
  · rw [flagGet_on_iff, land_eq_self_iff]
    intro i hi
    simp [Nat.zero_testBit] at hi

/-- C10 witness: bit two of the value five is set, so Get answers on. -/
theorem C10_flag_get_bits_witness : Flag.Get 5 (2 ^ 2) = "on" :=
  (C10_flag_get_bits 5 0 2).1.mpr (by decide)

/-- C7: GetMachine applied to the machine-readable test block yields the
machine with name demo, UUID 1234-uuid, state running, 512 MB memory, two
CPUs, 16 MB video memory, the config file path, and the base folder equal
to the directory of the config file; the unrecognized key in the block is
ignored. -/
theorem C7_getmachine_demo :
    GetMachine demoEnv ⟨0, []⟩ "demo" =
      (Except.ok demoMachine, ⟨1, [Event.showvminfo "demo"]⟩) := rfl

/-- C5 counterexample: the parser silently coerces an unrecognized VMState
string into the state field and reports success, not an unrecognized-state
condition. -/
theorem C5_counterexample :
    (GetMachine weirdStateEnv ⟨0, []⟩ "demo").1 =
      Except.ok { Machine.empty with State := "gurumeditation" } ∧
    ("gurumeditation" ≠ Poweroff ∧ "gurumeditation" ≠ Running ∧
     "gurumeditation" ≠ Paused ∧ "gurumeditation" ≠ Saved ∧
     "gurumeditation" ≠ Aborted) :=
  ⟨rfl, by decide⟩

/-- C5 amended: the parser copies the VMState value into the state field
verbatim and without validation, so a machine produced by GetMachine may
carry a state outside the five enumerated values and no unrecognized-state
condition is ever reported. -/
theorem C5_state_not_validated (m : Machine) (v : String)
    (hnl : ∀ x ∈ v.toList, x ≠ '\n')
    (hq : ¬(2 ≤ v.length ∧ v.front = '"' ∧ v.back = '"')) :
    applyInfo m "VMState" v = Except.ok { m with State := v } ∧
    parseMachineOutput ("VMState=" ++ v) =
      Except.ok { Machine.empty with State := v } := by
  refine ⟨rfl, ?_⟩
  unfold parseMachineOutput
  have hnl2 : ∀ x ∈ ("VMState=" ++ v).toList, x ≠ '\n' := by
    intro x hx
    rw [show ("VMState=" ++ v).toList = "VMState=".toList ++ v.toList from by
      simp [String.toList, String.data_append]] at hx
    rcases List.mem_append.mp hx with h | h
    · fin_cases h <;> decide
    · exact hnl x h
  rw [splitLines_no_newline _ hnl2]
  simp only [List.map_cons, List.map_nil]
  rw [show String.mk ("VMState=" ++ v).toList = "VMState=" ++ v from rfl]
  unfold parseMachineLines
  rw [parseInfoLine_vmstate v hq]
  rfl

/-- C5 witness: a concrete out-of-range state value is stored verbatim. -/
theorem C5_state_not_validated_witness :
    applyInfo Machine.empty "VMState" "gurumeditation" =
      Except.ok { Machine.empty with State := "gurumeditation" } ∧
    parseMachineOutput ("VMState=" ++ "gurumeditation") =
      Except.ok { Machine.empty with State := "gurumeditation" } :=
  C5_state_not_validated Machine.empty "gurumeditation" (by decide) (by decide)

/-- C3: Refresh is all-or-nothing: on any failure of the re-query or the
parse the machine is left exactly as it was, and on success every field
equals the corresponding field of the freshly parsed snapshot. -/
theorem C3_refresh_atomic (env : Env) (m : Machine) (s : St) :
    (∀ e m2 s2, m.Refresh env s = (Except.error e, m2, s2) → m2 = m) ∧
    (∀ m2 s2, m.Refresh env s = (Except.ok (), m2, s2) →
      (GetMachine env s m.refreshId).1 = Except.ok m2) := by
  unfold Machine.Refresh
  rcases hg : GetMachine env s m.refreshId with ⟨r, s2⟩
  rcases r with e | mm
  · constructor
    · intro e2 m2 s3 h
      have h2 : ((Except.error e : Except Err Unit), m, s2) =
          (Except.error e2, m2, s3) := h
      injection h2 with ha hb
      injection hb with hc hd
      exact hc.symm
    · intro m2 s3 h
      have h2 : ((Except.error e : Except Err Unit), m, s2) =
          (Except.ok (), m2, s3) := h
      injection h2 with ha hb
      injection ha
  · constructor
    · intro e2 m2 s3 h
      have h2 : ((Except.ok () : Except Err Unit), mm, s2) =
          (Except.error e2, m2, s3) := h
      injection h2 with ha hb
      injection ha
    · intro m2 s3 h
      have h2 : ((Except.ok () : Except Err Unit), mm, s2) =
          (Except.ok (), m2, s3) := h
      injection h2 with ha hb
      injection hb with hc hd
      exact congrArg Except.ok hc
  
/-- C3 witness: a non-numeric memory value aborts the refresh and leaves
every field of the snapshot untouched. -/
theorem C3_refresh_atomic_witness :
    someMachine.Refresh badMemEnv ⟨0, []⟩ =
      (Except.error (Err.parseUint "abc"), someMachine,
       ⟨1, [Event.showvminfo "demo"]⟩) ∧
    someMachine = someMachine :=
  ⟨rfl, (C3_refresh_atomic badMemEnv someMachine ⟨0, []⟩).1
    (Err.parseUint "abc") someMachine ⟨1, [Event.showvminfo "demo"]⟩ rfl⟩

/-- C1: for every machine and every cached state among the five enumerated
values, each lifecycle operation follows the routing table exactly: Start
from paused issues only the resume command, from poweroff, saved or aborted
only the headless start command, and from running no command; Save, Pause,
Stop and Poweroff return success and issue no command when their no-op
condition holds; otherwise Poweroff issues exactly the forceful poweroff
command. -/
theorem C1_lifecycle_routing (env : Env) (fuel : Nat) (m : Machine) (s : St) :
    (m.State = Paused → m.Start env s =
      (vbmResult (env.vbm s.k ["controlvm", m.Name, "resume"]),
       s.vbmCall ["controlvm", m.Name, "resume"])) ∧
    (m.State = Poweroff ∨ m.State = Saved ∨ m.State = Aborted →
      m.Start env s =
      (vbmResult (env.vbm s.k ["startvm", m.Name, "--type", "headless"]),
       s.vbmCall ["startvm", m.Name, "--type", "headless"])) ∧
    (m.State = Running → m.Start env s = (Except.ok (), s)) ∧
    (m.State = Poweroff ∨ m.State = Aborted ∨ m.State = Saved →
      m.Save env s = (Except.ok (), s)) ∧
    (m.State = Paused ∨ m.State = Poweroff ∨ m.State = Aborted ∨
        m.State = Saved →
      m.Pause env s = (Except.ok (), s)) ∧
    (m.State = Poweroff ∨ m.State = Aborted ∨ m.State = Saved →
      m.Stop env fuel s = some (Except.ok (), m, s)) ∧
    (m.State = Poweroff ∨ m.State = Aborted ∨ m.State = Saved →
      m.Poweroff env s = (Except.ok (), s)) ∧
    (m.State = Running ∨ m.State = Paused →
      m.Poweroff env s =
        (vbmResult (env.vbm s.k ["controlvm", m.Name, "poweroff"]),
         s.vbmCall ["controlvm", m.Name, "poweroff"])) := by
  refine ⟨?_, ?_, ?_, ?_, ?_, ?_, ?_, ?_⟩
  · intro h
    simp [Machine.Start, vbmRun, h]
  · rintro (h | h | h) <;>
      simp [Machine.Start, vbmRun, h, Poweroff, Saved, Aborted, Paused]
  · intro h
    simp [Machine.Start, h, Running, Poweroff, Saved, Aborted, Paused]
  · rintro (h | h | h) <;>
      simp [Machine.Save, h, Poweroff, Saved, Aborted, Paused]
  · rintro (h | h | h | h) <;>
      simp [Machine.Pause, h, Poweroff, Saved, Aborted, Paused]
  · rintro (h | h | h) <;>
      simp [Machine.Stop, h, Poweroff, Saved, Aborted, Paused]
  · rintro (h | h | h) <;>
      simp [Machine.Poweroff, h, Poweroff, Saved, Aborted, Paused]
  · rintro (h | h) <;>
      simp [Machine.Poweroff, vbmRun, h, Running, Poweroff, Saved, Aborted,
        Paused]

/-- C1 witness: Stop from the poweroff state is a pure no-op. -/
theorem C1_lifecycle_routing_witness :
    offMachine.Stop okEnv 5 ⟨0, []⟩ = some (Except.ok (), offMachine, ⟨0, []⟩) :=
  (C1_lifecycle_routing okEnv 5 offMachine ⟨0, []⟩).2.2.2.2.2.1
    (Or.inl (by decide))

theorem refresh_st (env : Env) (m : Machine) (s : St) :
    (m.Refresh env s).2.2 = s.queryCall m.refreshId := by
  unfold Machine.Refresh
  rcases hg : GetMachine env s m.refreshId with ⟨r, s2⟩
  have hs2 : s.queryCall m.refreshId = s2 := congrArg Prod.snd hg
  rcases r with e | mm
  · exact hs2.symm
  · exact hs2.symm

theorem stopLoop_ok_state (env : Env) :
    ∀ fuel m s u m2 s2,
      stopLoop env fuel m s = some (Except.ok u, m2, s2) →
      m2.State = Poweroff := by
  intro fuel
  induction fuel with
  | zero =>
    intro m s u m2 s2 h
    unfold stopLoop at h
    by_cases hp : m.State = Poweroff
    · rw [if_pos hp] at h
      have h2 : some ((Except.ok () : Except Err Unit), m, s) =
          some (Except.ok u, m2, s2) := h
      injection h2 with h3
      injection h3 with h4 h5
      injection h5 with h6 h7
      rw [← h6]
      exact hp
    · rw [if_neg hp] at h
      exact absurd h (by simp)
  | succ n ih =>
    intro m s u m2 s2 h
    unfold stopLoop at h
    by_cases hp : m.State = Poweroff
    · rw [if_pos hp] at h
      have h2 : some ((Except.ok () : Except Err Unit), m, s) =
          some (Except.ok u, m2, s2) := h
      injection h2 with h3
      injection h3 with h4 h5
      injection h5 with h6 h7
      rw [← h6]
      exact hp
    · rw [if_neg hp] at h
      simp only [vbmRun] at h
      cases hv : env.vbm s.k ["controlvm", m.Name, "acpipowerbutton"] with
      | some e =>
        rw [hv] at h
        have h2 : some ((Except.error e : Except Err Unit), m,
            s.vbmCall ["controlvm", m.Name, "acpipowerbutton"]) =
            some (Except.ok u, m2, s2) := h
        exact absurd h2 (by simp)
      | none =>
        rw [hv] at h
        have h3 : (match m.Refresh env
            ((s.vbmCall ["controlvm", m.Name, "acpipowerbutton"]).sleepEvt 1)
          with
          | (Except.error e2, mm, ss) => some (Except.error e2, mm, ss)
          | (Except.ok _, mm, ss) => stopLoop env n mm ss) =
            some (Except.ok u, m2, s2) := h
        rcases hr : m.Refresh env
            ((s.vbmCall ["controlvm", m.Name, "acpipowerbutton"]).sleepEvt 1)
          with ⟨r, m3, s3⟩
        rw [hr] at h3
        rcases r with e | u3
        · have h2 : some ((Except.error e : Except Err Unit), m3, s3) =
              some (Except.ok u, m2, s2) := h3
          exact absurd h2 (by simp)
        · exact ih m3 s3 u m2 s2 h3

theorem stopLoop_ok_trace (env : Env) :
    ∀ fuel m s u m2 s2,
      stopLoop env fuel m s = some (Except.ok u, m2, s2) →
      ∃ t, s2.trace = s.trace ++ t ∧ isPowerButtonBlocks t = true ∧
        (m.State ≠ Poweroff → t ≠ []) := by
  intro fuel
  induction fuel with
  | zero =>
    intro m s u m2 s2 h
    unfold stopLoop at h
    by_cases hp : m.State = Poweroff
    · rw [if_pos hp] at h
      have h2 : some ((Except.ok () : Except Err Unit), m, s) =
          some (Except.ok u, m2, s2) := h
      injection h2 with h3
      injection h3 with h4 h5
      injection h5 with h6 h7
      exact ⟨[], by rw [← h7]; simp, rfl, fun hc => absurd hp hc⟩
    · rw [if_neg hp] at h
      exact absurd h (by simp)
  | succ n ih =>
    intro m s u m2 s2 h
    unfold stopLoop at h
    by_cases hp : m.State = Poweroff
    · rw [if_pos hp] at h
      have h2 : some ((Except.ok () : Except Err Unit), m, s) =
          some (Except.ok u, m2, s2) := h
      injection h2 with h3
      injection h3 with h4 h5
      injection h5 with h6 h7
      exact ⟨[], by rw [← h7]; simp, rfl, fun hc => absurd hp hc⟩
    · rw [if_neg hp] at h
      simp only [vbmRun] at h
      cases hv : env.vbm s.k ["controlvm", m.Name, "acpipowerbutton"] with
      | some e =>
        rw [hv] at h
        have h2 : some ((Except.error e : Except Err Unit), m,
            s.vbmCall ["controlvm", m.Name, "acpipowerbutton"]) =
            some (Except.ok u, m2, s2) := h
        exact absurd h2 (by simp)
      | none =>
        rw [hv] at h
        have h3 : (match m.Refresh env
            ((s.vbmCall ["controlvm", m.Name, "acpipowerbutton"]).sleepEvt 1)
          with
          | (Except.error e2, mm, ss) => some (Except.error e2, mm, ss)
          | (Except.ok _, mm, ss) => stopLoop env n mm ss) =
            some (Except.ok u, m2, s2) := h
        rcases hr : m.Refresh env
            ((s.vbmCall ["controlvm", m.Name, "acpipowerbutton"]).sleepEvt 1)
          with ⟨r, m3, s3⟩
        rw [hr] at h3
        rcases r with e | u3
        · have h2 : some ((Except.error e : Except Err Unit), m3, s3) =
              some (Except.ok u, m2, s2) := h3
          exact absurd h2 (by simp)
        · obtain ⟨t2, ht2, hbl, _⟩ := ih m3 s3 u m2 s2 h3
          have hs3 : ((s.vbmCall
              ["controlvm", m.Name, "acpipowerbutton"]).sleepEvt 1).queryCall
                m.refreshId = s3 :=
            (refresh_st env m _).symm.trans (congrArg (fun t => t.2.2) hr)
          refine ⟨Event.vbm ["controlvm", m.Name, "acpipowerbutton"] ::
            Event.sleep 1 :: Event.showvminfo m.refreshId :: t2, ?_, ?_, ?_⟩
          · rw [ht2, ← hs3]
            simp [St.vbmCall, St.sleepEvt, St.queryCall]
          · simpa [isPowerButtonBlocks] using hbl
          · intro hc
            simp

theorem stopLoop_running_none :
    ∀ fuel m s, m.State ≠ Poweroff → stopLoop runningEnv fuel m s = none := by
  intro fuel
  induction fuel with
  | zero =>
    intro m s h
    unfold stopLoop
    rw [if_neg h]
  | succ n ih =>
    intro m s h
    unfold stopLoop
    rw [if_neg h]
    show stopLoop runningEnv n { Machine.empty with State := "running" }
      (((s.vbmCall ["controlvm", m.Name, "acpipowerbutton"]).sleepEvt
        1).queryCall m.refreshId) = none
    exact ih _ _ (by decide)

/-- C2: from every cached state outside the no-op set, Stop returns success
only with observed state poweroff; a successful poll loop run appends a
trace of whole blocks, each one power button command, one one second sleep,
one refresh, at least one block when the loop was entered; under an
environment that always reports running, Stop never returns for any fuel;
an error of the power button command or of the refresh is returned
immediately, from the very iteration it occurred in. -/
theorem C2_stop_poll (env : Env) (fuel : Nat) (m : Machine) (s : St)
    (hns : ¬(m.State = Poweroff ∨ m.State = Aborted ∨ m.State = Saved)) :
    (∀ u m2 s2, m.Stop env fuel s = some (Except.ok u, m2, s2) →
      m2.State = Poweroff) ∧
    (∀ fl m1 s1 u m2 s2,
      stopLoop env fl m1 s1 = some (Except.ok u, m2, s2) →
      ∃ t, s2.trace = s1.trace ++ t ∧ isPowerButtonBlocks t = true ∧
        (m1.State ≠ Poweroff → t ≠ [])) ∧
    (m.Stop runningEnv fuel s = none) ∧
    (∀ m1 s1 e fl, m1.State ≠ Poweroff →
      env.vbm s1.k ["controlvm", m1.Name, "acpipowerbutton"] = some e →
      stopLoop env (fl + 1) m1 s1 =
        some (Except.error e, m1,
          s1.vbmCall ["controlvm", m1.Name, "acpipowerbutton"])) ∧
    (∀ m1 s1 e m2 s2 fl, m1.State ≠ Poweroff →
      env.vbm s1.k ["controlvm", m1.Name, "acpipowerbutton"] = none →
      m1.Refresh env
          ((s1.vbmCall ["controlvm", m1.Name, "acpipowerbutton"]).sleepEvt 1) =
        (Except.error e, m2, s2) →
      stopLoop env (fl + 1) m1 s1 = some (Except.error e, m2, s2)) := by
  refine ⟨?_, ?_, ?_, ?_, ?_⟩
  · intro u m2 s2 h
    unfold Machine.Stop at h
    rw [if_neg hns] at h
    by_cases hp : m.State = Paused
    · rw [if_pos hp] at h
      rcases hst : m.Start env s with ⟨r, s3⟩
      rw [hst] at h
      rcases r with e | u1
      · have h2 : some ((Except.error e : Except Err Unit), m, s3) =
            some (Except.ok u, m2, s2) := h
        exact absurd h2 (by simp)
      · exact stopLoop_ok_state env fuel m s3 u m2 s2 h
    · rw [if_neg hp] at h
      exact stopLoop_ok_state env fuel m s u m2 s2 h
  · intro fl m1 s1 u m2 s2 h
    exact stopLoop_ok_trace env fl m1 s1 u m2 s2 h
  · unfold Machine.Stop
    rw [if_neg hns]
    by_cases hp : m.State = Paused
    · rw [if_pos hp]
      have hstart : m.Start runningEnv s =
          (Except.ok (), s.vbmCall ["controlvm", m.Name, "resume"]) := by
        simp [Machine.Start, vbmRun, hp, runningEnv, vbmResult]
      rw [hstart]
      exact stopLoop_running_none fuel m _ (by rw [hp]; decide)
    · rw [if_neg hp]
      exact stopLoop_running_none fuel m s (fun hc => hns (Or.inl hc))
  · intro m1 s1 e fl hm hv
    unfold stopLoop
    rw [if_neg hm]
    simp only [vbmRun]
    rw [hv]
    rfl
  · intro m1 s1 e m2 s2 fl hm hv hr
    unfold stopLoop
    rw [if_neg hm]
    simp only [vbmRun]
    rw [hv]
    show (match m1.Refresh env
        ((s1.vbmCall ["controlvm", m1.Name, "acpipowerbutton"]).sleepEvt 1) with
      | (Except.error e, m2, s4) => some (Except.error e, m2, s4)
      | (Except.ok _, m2, s4) => stopLoop env fl m2 s4) =
      some (Except.error e, m2, s2)
    rw [hr]

/-- C2 witness: a running machine under the always-running environment
never finishes stopping. -/
theorem C2_stop_poll_witness : someMachine.Stop runningEnv 3 ⟨0, []⟩ = none :=
  (C2_stop_poll runningEnv 3 someMachine ⟨0, []⟩ (by decide)).2.2.1

/-- C4 counterexample: Restart of a machine whose cached state is saved
succeeds without ever driving the machine to an observed poweroff state:
Start does not refresh the cached snapshot, so the subsequent Stop sees the
stale saved state and is a no-op; the whole run issues two headless start
commands and no power button or poweroff command, and the returned snapshot
still carries the saved state. -/
theorem C4_counterexample :
    savedMachine.Restart okEnv 5 ⟨0, []⟩ =
      some (Except.ok (), savedMachine,
        ⟨2, [Event.vbm ["startvm", "demo", "--type", "headless"],
             Event.vbm ["startvm", "demo", "--type", "headless"]]⟩) ∧
    savedMachine.State ≠ Poweroff :=
  ⟨rfl, by decide⟩

/-- C4 amended: for every machine whose cached state is paused or saved,
Restart performs Start, then Stop, then Start again, and any sub-step error
aborts the whole operation and is propagated unchanged; because Start does
not refresh the cached snapshot, Stop observes the stale state: only from
the cached paused state does a successful Stop step end with observed state
poweroff, while from the cached saved state Stop is a no-op. -/
theorem C4_restart_sequencing (env : Env) (fuel : Nat) (m : Machine) (s : St)
    (h : m.State = Paused ∨ m.State = Saved) :
    (∀ e s2, m.Start env s = (Except.error e, s2) →
      m.Restart env fuel s = some (Except.error e, m, s2)) ∧
    (∀ u s2, m.Start env s = (Except.ok u, s2) →
      (m.Stop env fuel s2 = none → m.Restart env fuel s = none) ∧
      (∀ e m2 s3, m.Stop env fuel s2 = some (Except.error e, m2, s3) →
        m.Restart env fuel s = some (Except.error e, m2, s3)) ∧
      (∀ u2 m2 s3, m.Stop env fuel s2 = some (Except.ok u2, m2, s3) →
        (m.State = Paused → m2.State = Poweroff) ∧
        (m.State = Saved → m2 = m ∧ s3 = s2) ∧
        (∀ e s4, m2.Start env s3 = (Except.error e, s4) →
          m.Restart env fuel s = some (Except.error e, m2, s4)) ∧
        (∀ u3 s4, m2.Start env s3 = (Except.ok u3, s4) →
          m.Restart env fuel s = some (Except.ok (), m2, s4)))) := by
  have hif : (if m.State = Paused ∨ m.State = Saved then m.Start env s
      else (Except.ok (), s)) = m.Start env s := if_pos h
  constructor
  · intro e s2 hs
    unfold Machine.Restart
    rw [hif, hs]
  · intro u s2 hs
    refine ⟨?_, ?_, ?_⟩
    · intro hnone
      unfold Machine.Restart
      rw [hif, hs]
      show (match m.Stop env fuel s2 with
        | none => none
        | some (Except.error e2, mm, ss) => some (Except.error e2, mm, ss)
        | some (Except.ok _, mm, ss) =>
          match mm.Start env ss with
          | (Except.error e2, s4) => some (Except.error e2, mm, s4)
          | (Except.ok _, s4) => some (Except.ok (), mm, s4)) = none
      rw [hnone]
    · intro e m2 s3 hstop
      unfold Machine.Restart
      rw [hif, hs]
      show (match m.Stop env fuel s2 with
        | none => none
        | some (Except.error e2, mm, ss) => some (Except.error e2, mm, ss)
        | some (Except.ok _, mm, ss) =>
          match mm.Start env ss with
          | (Except.error e2, s4) => some (Except.error e2, mm, s4)
          | (Except.ok _, s4) => some (Except.ok (), mm, s4)) =
        some (Except.error e, m2, s3)
      rw [hstop]
    · intro u2 m2 s3 hstop
      refine ⟨?_, ?_, ?_, ?_⟩
      · intro hp
        unfold Machine.Stop at hstop
        rw [if_neg (by rw [hp]; decide), if_pos hp] at hstop
        rcases hst2 : m.Start env s2 with ⟨r, s5⟩
        rw [hst2] at hstop
        rcases r with e | u4
        · have h2 : some ((Except.error e : Except Err Unit), m, s5) =
              some (Except.ok u2, m2, s3) := hstop
          exact absurd h2 (by simp)
        · exact stopLoop_ok_state env fuel m s5 u2 m2 s3 hstop
      · intro hsv
        unfold Machine.Stop at hstop
        rw [if_pos (by rw [hsv]; decide)] at hstop
        have h2 : some ((Except.ok () : Except Err Unit), m, s2) =
            some (Except.ok u2, m2, s3) := hstop
        injection h2 with h3
        injection h3 with h4 h5
        injection h5 with h6 h7
        exact ⟨h6.symm, h7.symm⟩
      · intro e s4 hs4
        unfold Machine.Restart
        rw [hif, hs]
        show (match m.Stop env fuel s2 with
          | none => none
          | some (Except.error e2, mm, ss) => some (Except.error e2, mm, ss)
          | some (Except.ok _, mm, ss) =>
            match mm.Start env ss with
            | (Except.error e2, s5) => some (Except.error e2, mm, s5)
            | (Except.ok _, s5) => some (Except.ok (), mm, s5)) =
          some (Except.error e, m2, s4)
        rw [hstop]
        show (match m2.Start env s3 with
          | (Except.error e2, s5) => some (Except.error e2, m2, s5)
          | (Except.ok _, s5) => some (Except.ok (), m2, s5)) =
          some (Except.error e, m2, s4)
        rw [hs4]
      · intro u3 s4 hs4
        unfold Machine.Restart
        rw [hif, hs]
        show (match m.Stop env fuel s2 with
          | none => none
          | some (Except.error e2, mm, ss) => some (Except.error e2, mm, ss)
          | some (Except.ok _, mm, ss) =>
            match mm.Start env ss with
            | (Except.error e2, s5) => some (Except.error e2, mm, s5)
            | (Except.ok _, s5) => some (Except.ok (), mm, s5)) =
          some (Except.ok (), m2, s4)
        rw [hstop]
        show (match m2.Start env s3 with
          | (Except.error e2, s5) => some (Except.error e2, m2, s5)
          | (Except.ok _, s5) => some (Except.ok (), m2, s5)) =
          some (Except.ok (), m2, s4)
        rw [hs4]

/-- C4 witness: the saved state instance of the amended sequencing. -/
theorem C4_restart_sequencing_witness :
    savedMachine.Restart okEnv 5 ⟨0, []⟩ =
      some (Except.ok (), savedMachine,
        ⟨2, [Event.vbm ["startvm", "demo", "--type", "headless"],
             Event.vbm ["startvm", "demo", "--type", "headless"]]⟩) :=
  ((((C4_restart_sequencing okEnv 5 savedMachine ⟨0, []⟩ (Or.inr (by decide))).2
      () ⟨1, [Event.vbm ["startvm", "demo", "--type", "headless"]]⟩
      rfl).2.2 () savedMachine
      ⟨1, [Event.vbm ["startvm", "demo", "--type", "headless"]]⟩
      rfl).2.2.2 ()
      ⟨2, [Event.vbm ["startvm", "demo", "--type", "headless"],
           Event.vbm ["startvm", "demo", "--type", "headless"]]⟩ rfl)

theorem listLoop_trace (env : Env) :
    ∀ lines s r s2, listLoop env lines s = (r, s2) →
      ∃ t, s2.trace = s.trace ++ t ∧
        ∀ ev ∈ t, ∃ id, ev = Event.showvminfo id := by
  intro lines
  induction lines with
  | nil =>
    intro s r s2 h
    have h2 : ((Except.ok [] : Except Err (List Machine)), s) = (r, s2) := h
    injection h2 with h3 h4
    exact ⟨[], by rw [← h4]; simp, by simp⟩
  | cons l ls ih =>
    intro s r s2 h
    unfold listLoop at h
    cases hp : parseListLine l with
    | none =>
      rw [hp] at h
      exact ih s r s2 h
    | some p =>
      obtain ⟨nm, uu⟩ := p
      rw [hp] at h
      have h3 : (match GetMachine env s nm with
        | (Except.error e, s3) => ((Except.error e : Except Err (List Machine)), s3)
        | (Except.ok mch, s3) =>
          match listLoop env ls s3 with
          | (Except.error e, s4) => (Except.error e, s4)
          | (Except.ok ms, s4) => (Except.ok (mch :: ms), s4)) = (r, s2) := h
      rcases hg : GetMachine env s nm with ⟨rg, sg⟩
      have hsg : s.queryCall nm = sg := congrArg Prod.snd hg
      rw [hg] at h3
      rcases rg with e | mch
      · have h4 : ((Except.error e : Except Err (List Machine)), sg) = (r, s2) := h3
        injection h4 with h5 h6
        refine ⟨[Event.showvminfo nm], ?_, by simp⟩
        rw [← h6, ← hsg]
        simp [St.queryCall]
      · have h3b : (match listLoop env ls sg with
          | (Except.error e, s4) => ((Except.error e : Except Err (List Machine)), s4)
          | (Except.ok ms, s4) => (Except.ok (mch :: ms), s4)) = (r, s2) := h3
        rcases hll : listLoop env ls sg with ⟨rl, sl⟩
        rw [hll] at h3b
        obtain ⟨t2, ht2, hmem⟩ := ih sg rl sl hll
        have hmem2 : ∀ ev ∈ Event.showvminfo nm :: t2, ∃ id, ev = Event.showvminfo id := by
          intro ev hev
          rcases List.mem_cons.mp hev with he | he
          · exact ⟨nm, he⟩
          · exact hmem ev he
        have htr : sl.trace = s.trace ++ (Event.showvminfo nm :: t2) := by
          rw [ht2, ← hsg]
          simp [St.queryCall]
        rcases rl with e2 | ms
        · have h4 : ((Except.error e2 : Except Err (List Machine)), sl) = (r, s2) := h3b
          injection h4 with h5 h6
          exact ⟨Event.showvminfo nm :: t2, by rw [← h6]; exact htr, hmem2⟩
        · have h4 : ((Except.ok (mch :: ms) : Except Err (List Machine)), sl) = (r, s2) := h3b
          injection h4 with h5 h6
          exact ⟨Event.showvminfo nm :: t2, by rw [← h6]; exact htr, hmem2⟩

/-- C6: CreateMachine with an empty name fails as malformed input without
any external call; the list step issues only registry and info queries,
never a create command; on a name collision the specific already-exists
error is returned before the create command; only when both guards pass is
the create command issued, with the base folder flag exactly when the base
folder is nonempty, and the freshly queried machine returned. -/
theorem C6_create_guards (env : Env) (name basefolder : String) (s : St) :
    (CreateMachine env "" basefolder s = (Except.error Err.nameEmpty, s)) ∧
    (∀ r s2, ListMachines env s = (r, s2) →
      ∃ t, s2.trace = s.trace ++ t ∧
        ∀ ev ∈ t, ev = Event.listvms ∨ ∃ id, ev = Event.showvminfo id) ∧
    (name ≠ "" → ∀ ms s2, ListMachines env s = (Except.ok ms, s2) →
      ((∃ m2 ∈ ms, m2.Name = name) →
        CreateMachine env name basefolder s =
          (Except.error Err.machineExist, s2)) ∧
      ((∀ m2 ∈ ms, m2.Name ≠ name) →
        (∀ e, env.vbm s2.k (createArgs name basefolder) = some e →
          CreateMachine env name basefolder s =
            (Except.error e, s2.vbmCall (createArgs name basefolder))) ∧
        (env.vbm s2.k (createArgs name basefolder) = none →
          CreateMachine env name basefolder s =
            GetMachine env (s2.vbmCall (createArgs name basefolder)) name))) := by
  refine ⟨by simp [CreateMachine], ?_, ?_⟩
  · intro r s2 h
    unfold ListMachines at h
    cases hl : env.listvms s.k with
    | error e =>
      rw [hl] at h
      have h2 : ((Except.error e : Except Err (List Machine)), s.listCall) =
          (r, s2) := h
      injection h2 with h3 h4
      refine ⟨[Event.listvms], ?_, by simp⟩
      rw [← h4]
      simp [St.listCall]
    | ok out =>
      rw [hl] at h
      obtain ⟨t, ht, hmem⟩ := listLoop_trace env _ s.listCall r s2 h
      refine ⟨Event.listvms :: t, ?_, ?_⟩
      · rw [ht]
        simp [St.listCall]
      · intro ev hev
        rcases List.mem_cons.mp hev with he | he
        · exact Or.inl he
        · exact Or.inr (hmem ev he)
  · intro hname ms s2 hlist
    constructor
    · intro hex
      obtain ⟨m2, hm2, hm2n⟩ := hex
      have hany : ms.any (fun m3 => m3.Name == name) = true :=
        List.any_eq_true.mpr ⟨m2, hm2, beq_iff_eq.mpr hm2n⟩
      unfold CreateMachine
      rw [if_neg hname, hlist]
      show (if ms.any (fun m3 => m3.Name == name) then
          ((Except.error Err.machineExist : Except Err Machine), s2)
        else match vbmRun env s2 (createArgs name basefolder) with
          | (Except.error e, s3) => (Except.error e, s3)
          | (Except.ok _, s3) => GetMachine env s3 name) =
        (Except.error Err.machineExist, s2)
      rw [if_pos hany]
    · intro hall
      have hany : ms.any (fun m3 => m3.Name == name) = false := by
        rw [List.any_eq_false]
        intro m3 hm3
        simp only [beq_iff_eq]
        exact hall m3 hm3
      constructor
      · intro e hv
        unfold CreateMachine
        rw [if_neg hname, hlist]
        show (if ms.any (fun m3 => m3.Name == name) then
            ((Except.error Err.machineExist : Except Err Machine), s2)
          else match vbmRun env s2 (createArgs name basefolder) with
            | (Except.error e2, s3) => (Except.error e2, s3)
            | (Except.ok _, s3) => GetMachine env s3 name) =
          (Except.error e, s2.vbmCall (createArgs name basefolder))
        rw [if_neg (by rw [hany]; decide)]
        simp only [vbmRun]
        rw [hv]
        rfl
      · intro hv
        unfold CreateMachine
        rw [if_neg hname, hlist]
        show (if ms.any (fun m3 => m3.Name == name) then
            ((Except.error Err.machineExist : Except Err Machine), s2)
          else match vbmRun env s2 (createArgs name basefolder) with
            | (Except.error e2, s3) => (Except.error e2, s3)
            | (Except.ok _, s3) => GetMachine env s3 name) =
          GetMachine env (s2.vbmCall (createArgs name basefolder)) name
        rw [if_neg (by rw [hany]; decide)]
        simp only [vbmRun]
        rw [hv]
        rfl

/-- C6 witness: creating the already listed name demo fails as
already-exists after only the listing queries. -/
theorem C6_create_guards_witness :
    CreateMachine listEnv "demo" "" ⟨0, []⟩ =
      (Except.error Err.machineExist,
       ⟨2, [Event.listvms, Event.showvminfo "demo"]⟩) :=
  (((C6_create_guards listEnv "demo" "" ⟨0, []⟩).2.2 (by decide) [demoMachine]
      ⟨2, [Event.listvms, Event.showvminfo "demo"]⟩ rfl).1
    ⟨demoMachine, by simp, rfl⟩)

/-- C8: ListMachines skips each line that does not match the quoted name
and bare UUID shape without failing, resolves each matching line through
GetMachine, aborts the whole listing at the first resolution failure, and
on the two-line test vector (one well-formed line, one malformed line)
returns exactly one resolved machine and no error. -/
theorem C8_listmachines (env : Env) (l : String) (ls : List String) (s : St) :
    (parseListLine l = none → listLoop env (l :: ls) s = listLoop env ls s) ∧
    (∀ nm uu e s2, parseListLine l = some (nm, uu) →
      GetMachine env s nm = (Except.error e, s2) →
      listLoop env (l :: ls) s = (Except.error e, s2)) ∧
    ListMachines listEnv ⟨0, []⟩ =
      (Except.ok [demoMachine],
       ⟨2, [Event.listvms, Event.showvminfo "demo"]⟩) := by
  refine ⟨?_, ?_, rfl⟩
  · intro hp
    simp only [listLoop]
    rw [hp]
  · intro nm uu e s2 hp hg
    unfold listLoop
    rw [hp]
    show (match GetMachine env s nm with
      | (Except.error e2, s3) => ((Except.error e2 : Except Err (List Machine)), s3)
      | (Except.ok mch, s3) =>
        match listLoop env ls s3 with
        | (Except.error e2, s4) => (Except.error e2, s4)
        | (Except.ok ms, s4) => (Except.ok (mch :: ms), s4)) =
      (Except.error e, s2)
    rw [hg]

/-- C8 witness: the malformed line is skipped without error. -/
theorem C8_listmachines_witness :
    listLoop listEnv ["garbage line"] ⟨0, []⟩ = listLoop listEnv [] ⟨0, []⟩ :=
  (C8_listmachines listEnv "garbage line" [] ⟨0, []⟩).1 rfl

theorem bootLoop_spec (devs : List String) :
    ∀ i, bootLoop i devs =
      (((devs.take (4 - i)).enumFrom (i + 1)).map
        (fun p => [("--boot" ++ toString p.1), p.2])).flatten := by
  induction devs with
  | nil =>
    intro i
    simp [bootLoop]
  | cons d rest ih =>
    intro i
    by_cases h4 : i > 3
    · have h0 : 4 - i = 0 := by omega
      simp [bootLoop, h4, h0]
    · have h4i : 4 - i = (4 - (i + 1)) + 1 := by omega
      simp only [bootLoop, if_neg h4]
      rw [h4i, List.take_succ_cons, List.enumFrom_cons]
      simp only [List.map_cons, List.flatten_cons]
      rw [ih (i + 1)]
      rfl

/-- C9: Modify passes exactly the first four boot order entries, in their
original order, as the slot flags boot1 through boot4, silently dropping
every entry beyond the fourth; a boot order of four or fewer entries is
passed in full; and the modify command is issued with exactly this argument
list. -/
theorem C9_boot_order_slots (m : Machine) (env : Env) (s : St) :
    (m.modifyArgs = m.modifyFixedArgs ++
      (((m.BootOrder.take 4).enumFrom 1).map
        (fun p => [("--boot" ++ toString p.1), p.2])).flatten) ∧
    (m.BootOrder.length ≤ 4 → m.modifyArgs = m.modifyFixedArgs ++
      ((m.BootOrder.enumFrom 1).map
        (fun p => [("--boot" ++ toString p.1), p.2])).flatten) ∧
    (∃ rest, (m.Modify env s).2.2.trace =
      s.trace ++ Event.vbm m.modifyArgs :: rest) := by
  refine ⟨?_, ?_, ?_⟩
  · unfold Machine.modifyArgs
    rw [bootLoop_spec m.BootOrder 0]
  · intro hlen
    unfold Machine.modifyArgs
    rw [bootLoop_spec m.BootOrder 0]
    rw [show (4 : Nat) - 0 = 4 from rfl, List.take_of_length_le hlen]
  · unfold Machine.Modify
    simp only [vbmRun]
    cases hv : env.vbm s.k m.modifyArgs with
    | some e =>
      refine ⟨[], ?_⟩
      rfl
    | none =>
      refine ⟨[Event.showvminfo m.refreshId], ?_⟩
      show (m.Refresh env (s.vbmCall m.modifyArgs)).2.2.trace = _
      rw [refresh_st]
      simp [St.vbmCall, St.queryCall]

/-- C9 witness: a two-entry boot order is passed in full and in order. -/
theorem C9_boot_order_slots_witness :
    bootMachine.modifyArgs = bootMachine.modifyFixedArgs ++
      ((bootMachine.BootOrder.enumFrom 1).map
        (fun p => [("--boot" ++ toString p.1), p.2])).flatten :=
  (C9_boot_order_slots bootMachine okEnv ⟨0, []⟩).2.1 (by decide)

end VirtualBox
